import Mathlib

/-!
Shallow embedding of the FPL companion app's prediction scorer
(`src/lib/predictions.ts`), transfer-suggestion scorer
(`src/components/transfers/TransferPlanner.tsx`) and squad store
(`src/store/teamStore.ts`).  Machine numbers are modelled as `Int`
(prices, ids) and `Rat` (scores and statistics that the code keeps as
JS numbers, including the values it parses out of strings such as
`form` and `points_per_game`).
-/

namespace FPL

/-- A player record, restricted to the fields the scorers and the squad
store read.  `form` and `points_per_game` hold the already-parsed
numeric values (`parseFloat(x) || 0` in the source). -/
structure Player where
  id : Int
  element_type : Int
  team : Int
  status : String
  now_cost : Int
  form : Rat
  points_per_game : Rat
  chance_of_playing_this_round : Option Rat
  minutes : Rat
deriving DecidableEq, Repr

/-- A team's directional strength ratings, as used by the home/away score. -/
structure Team where
  id : Int
  strength_attack_home : Rat
  strength_attack_away : Rat
  strength_defence_home : Rat
  strength_defence_away : Rat
deriving DecidableEq, Repr

/-- A fixture: the two team ids and the per-side difficulty ratings. -/
structure Fixture where
  team_h : Int
  team_a : Int
  team_h_difficulty : Rat
  team_a_difficulty : Rat
deriving DecidableEq, Repr

/-- One entry of a player's per-match history (only `total_points` is read). -/
structure PlayerHistory where
  total_points : Int
deriving DecidableEq, Repr

/-- JavaScript's `Math.round`: round half up, i.e. `floor (x + 1/2)`. -/
def jsRound (x : Rat) : Int := ⌊x + 1/2⌋

/-- The fixed weights of the prediction formula (`WEIGHTS` in the source). -/
structure Weights where
  form : Rat
  fixtureDifficulty : Rat
  homeAway : Rat
  minutesCertainty : Rat

def WEIGHTS : Weights :=
  { form := 0.4, fixtureDifficulty := 0.3, homeAway := 0.1, minutesCertainty := 0.2 }

/-- `calculateFormScore`: average of the last 5 history entries capped at 10
when history is present and non-empty, otherwise `min (form * 2) 10`. -/
def calculateFormScore (player : Player) (history : Option (List PlayerHistory)) : Rat :=
  let formValue := player.form
  match history with
  | some h =>
    if h.length > 0 then
      let last5Games := h.drop (h.length - 5)
      let avgPoints :=
        (last5Games.map (fun g => (g.total_points : Rat))).sum / (last5Games.length : Rat)
      min avgPoints 10
    else
      min (formValue * 2) 10
  | none => min (formValue * 2) 10

/-- `calculateFixtureDifficultyScore`: `max 0 (min (11 - 2*difficulty) 10)`,
neutral 5 without a fixture or when the player's team is not found. -/
def calculateFixtureDifficultyScore (player : Player) (fixture : Option Fixture)
    (teams : List Team) : Rat :=
  match fixture with
  | none => 5
  | some fixture =>
    match teams.find? (fun t => t.id == player.team) with
    | none => 5
    | some _playerTeam =>
      let isHome := fixture.team_h == player.team
      let difficulty := if isHome then fixture.team_h_difficulty else fixture.team_a_difficulty
      let baseScore := 11 - difficulty * 2
      max 0 (min baseScore 10)

/-- `calculateHomeAwayScore`: the relevant directional strength rating divided
by 140 and multiplied by 10, exactly as the source computes it (no clamp). -/
def calculateHomeAwayScore (player : Player) (fixture : Option Fixture)
    (teams : List Team) : Rat :=
  match fixture with
  | none => 5
  | some fixture =>
    let isHome := fixture.team_h == player.team
    match teams.find? (fun t => t.id == player.team) with
    | none => 5
    | some playerTeam =>
      if player.element_type = 1 ∨ player.element_type = 2 then
        let strength :=
          if isHome then playerTeam.strength_defence_home else playerTeam.strength_defence_away
        strength / 140 * 10
      else
        let strength :=
          if isHome then playerTeam.strength_attack_home else playerTeam.strength_attack_away
        strength / 140 * 10

/-- The minutes-played adjustment and final clamp of
`calculateMinutesCertaintyScore` (its tail after the status and
chance-of-playing checks). -/
def minutesTail (player : Player) (score : Rat) : Rat :=
  let totalMinutes := player.minutes
  let possibleMinutes : Rat := 90 * 20
  let minutesPart := totalMinutes / possibleMinutes
  let score :=
    if minutesPart > 0.8 then score + 3
    else if minutesPart > 0.6 then score + 1
    else if minutesPart < 0.3 then score - 2
    else score
  max 0 (min score 10)

/-- The chance-of-playing checks of `calculateMinutesCertaintyScore`
(`0 → return 0`, `< 50 → -2`, `< 75 → -1`), then the minutes tail. -/
def chanceStep (player : Player) (score : Rat) : Rat :=
  match player.chance_of_playing_this_round with
  | some chance =>
    if chance = 0 then 0
    else
      let score := if chance < 50 then score - 2 else score
      let score := if chance < 75 then score - 1 else score
      minutesTail player score
  | none => minutesTail player score

/-- `calculateMinutesCertaintyScore`: starts at 5; injured/suspended return 0;
other non-available statuses lose 3; then the chance and minutes steps. -/
def calculateMinutesCertaintyScore (player : Player) : Rat :=
  let score : Rat := 5
  if player.status ≠ "a" then
    if player.status = "i" ∨ player.status = "s" then 0
    else chanceStep player (score - 3)
  else chanceStep player score

/-- A prediction confidence label. -/
inductive Confidence where
  | HIGH
  | MEDIUM
  | LOW
deriving DecidableEq, Repr

/-- The four sub-scores of a prediction. -/
structure PredictionFactors where
  form : Rat
  fixtureDifficulty : Rat
  homeAway : Rat
  minutesCertainty : Rat
deriving DecidableEq, Repr

/-- `calculateConfidence` on the computed factors. -/
def calculateConfidence (factors : PredictionFactors) : Confidence :=
  if factors.minutesCertainty ≥ 7 ∧ factors.form ≥ 5 ∧ factors.fixtureDifficulty ≥ 6 then
    .HIGH
  else if factors.minutesCertainty < 4 ∨ factors.form < 3 ∨ factors.fixtureDifficulty < 3 then
    .LOW
  else
    .MEDIUM

/-- The `reasoning` block of a prediction (note `homeAway` is a string here,
"home" or "away", exactly as in the source's `PlayerPrediction` type). -/
structure Reasoning where
  form : Rat
  fixtureDifficulty : Rat
  homeAway : String
  minutesCertainty : Rat
deriving DecidableEq, Repr

/-- The result type of `predictPlayerPoints`. -/
structure PlayerPrediction where
  playerId : Int
  predictedPoints : Int
  confidence : Confidence
  reasoning : Reasoning
deriving DecidableEq, Repr

/-- `predictPlayerPoints`: the four sub-scores, their weighted sum scaled by
1.5 and rounded, and the confidence label. -/
def predictPlayerPoints (player : Player) (nextFixture : Option Fixture)
    (teams : List Team) (history : Option (List PlayerHistory)) : PlayerPrediction :=
  let formScore := calculateFormScore player history
  let fixtureScore := calculateFixtureDifficultyScore player nextFixture teams
  let homeAwayScore := calculateHomeAwayScore player nextFixture teams
  let minutesScore := calculateMinutesCertaintyScore player
  let factors : PredictionFactors :=
    { form := formScore, fixtureDifficulty := fixtureScore,
      homeAway := homeAwayScore, minutesCertainty := minutesScore }
  let weightedScore :=
    formScore * WEIGHTS.form +
    fixtureScore * WEIGHTS.fixtureDifficulty +
    homeAwayScore * WEIGHTS.homeAway +
    minutesScore * WEIGHTS.minutesCertainty
  let predictedPoints := jsRound (weightedScore * 1.5)
  let confidence := calculateConfidence factors
  { playerId := player.id
    predictedPoints := predictedPoints
    confidence := confidence
    reasoning :=
      { form := formScore
        fixtureDifficulty := fixtureScore
        homeAway :=
          match nextFixture with
          | some f => if f.team_h == player.team then "home" else "away"
          | none => "home"
        minutesCertainty := minutesScore } }

/-- The display metrics of a transfer suggestion. -/
structure SuggestionMetrics where
  base : Rat
  mins : Rat
  fixt : Rat
  form : Rat
deriving DecidableEq, Repr

/-- A transfer suggestion: an out/in pair with its expected gain and metrics. -/
structure TransferSuggestion where
  playerOut : Player
  playerIn : Player
  expectedGain : Rat
  metrics : SuggestionMetrics
deriving DecidableEq, Repr

/-- The per-pair scoring of the transfer planner's `suggestions` memo:
base/minutes/fixture/form metrics and the blended `expectedGain`. -/
def scorePair (playerOut playerIn : Player) : TransferSuggestion :=
  let formDiff := playerIn.form - playerOut.form
  let ppgDiff := playerIn.points_per_game - playerOut.points_per_game
  let baseScore := min 100 (max 0 (50 + ppgDiff * 10))
  let minsScore : Rat := if playerIn.status = "a" then 80 else 40
  let fixtScore : Rat := 70
  let formScore := min 100 (max 0 (50 + formDiff * 20))
  let expectedGain :=
    (baseScore * 0.3 + minsScore * 0.2 + fixtScore * 0.2 + formScore * 0.3) / 10
  { playerOut := playerOut, playerIn := playerIn, expectedGain := expectedGain,
    metrics := { base := baseScore, mins := minsScore, fixt := fixtScore, form := formScore } }

/-- The candidate filter of the transfer planner: same position, not already
in the squad, affordable from bank plus the outgoing player's price, at most
3 per club unless replacing a player of the same club, and status "a" or "d".
`sameTeamCount` is the `teamTeams[p.team] || 0` lookup of the source, i.e.
the number of squad members from `p`'s club. -/
def candidateFilter (teamPlayers : List Player) (budget : Int)
    (playerOut : Player) (p : Player) : Bool :=
  let teamPlayerIds := teamPlayers.map (fun q => q.id)
  let availableBudget := budget + playerOut.now_cost
  let sameTeamCount := (teamPlayers.filter (fun q => q.team == p.team)).length
  p.element_type == playerOut.element_type &&
  !(teamPlayerIds.contains p.id) &&
  !(p.now_cost > availableBudget) &&
  !(p.team != playerOut.team && sameTeamCount ≥ 3) &&
  (p.status == "a" || p.status == "d")

/-- Whether the sort of `suggestions` puts `a` before `b`: the comparator
`(a, b) => b.expectedGain - a.expectedGain` orders by descending gain. -/
def gainLe (a b : TransferSuggestion) : Bool :=
  decide (b.expectedGain ≤ a.expectedGain)

/-- The transfer planner's `suggestions` memo: for each rostered player, the
first 100 filtered candidates are scored, pairs with gain > 5 are kept, and
the whole list is sorted by descending gain and truncated to 9. -/
def suggestions (teamPlayers allPlayers : List Player) (budget : Int) :
    List TransferSuggestion :=
  let results := teamPlayers.flatMap (fun playerOut =>
    let candidates := (allPlayers.filter (candidateFilter teamPlayers budget playerOut)).take 100
    (candidates.map (fun playerIn => scorePair playerOut playerIn)).filter
      (fun s => decide (s.expectedGain > 5)))
  (results.mergeSort gainLe).take 9

/-- The squad store's state: the persisted `UserTeam` fields plus the error
slot that validation failures write. -/
structure TeamState where
  teamId : Option Int
  teamName : String
  managerName : String
  players : List Player
  formation : String
  budget : Int
  teamValue : Int
  captain : Option Int
  viceCaptain : Option Int
  error : Option String
deriving DecidableEq, Repr

/-- The store's `initialState`: empty squad, bank 1000, no designations. -/
def initialState : TeamState :=
  { teamId := none, teamName := "", managerName := "", players := [],
    formation := "3-4-3", budget := 1000, teamValue := 0,
    captain := none, viceCaptain := none, error := none }

/-- `reduce((sum, p) => sum + p.now_cost, 0)` over a list of players. -/
def squadValue (players : List Player) : Int :=
  players.foldl (fun sum p => sum + p.now_cost) 0

/-- `fplApi.getPositionName`. -/
def getPositionName (elementType : Int) : String :=
  if elementType = 1 then "GK"
  else if elementType = 2 then "DEF"
  else if elementType = 3 then "MID"
  else if elementType = 4 then "FWD"
  else "UNKNOWN"

/-- `getPositionCount`: members of the squad with the given position. -/
def getPositionCount (s : TeamState) (elementType : Int) : Nat :=
  (s.players.filter (fun p => p.element_type == elementType)).length

/-- `getTeamPlayerCount`: members of the squad from the given club. -/
def getTeamPlayerCount (s : TeamState) (teamId : Int) : Nat :=
  (s.players.filter (fun p => p.team == teamId)).length

/-- The `positionLimits` record lookup (`{1: 2, 2: 5, 3: 5, 4: 3}`); `none`
models the `undefined` a JS record lookup yields off these keys, for which
the `count >= limit` comparison is false. -/
def positionLimits (elementType : Int) : Option Nat :=
  if elementType = 1 then some 2
  else if elementType = 2 then some 5
  else if elementType = 3 then some 5
  else if elementType = 4 then some 3
  else none

/-- The club and budget checks of `canAddPlayer` (its tail after the squad
size, duplicate and position-quota checks). -/
def canAddPlayerRest (s : TeamState) (player : Player) : Option String :=
  if getTeamPlayerCount s player.team ≥ 3 then
    some "Maximum 3 players from same team allowed"
  else
    let remainingBudget := s.budget + s.teamValue
    let newTeamValue := s.teamValue + player.now_cost
    if newTeamValue > remainingBudget then
      some "Insufficient budget"
    else
      none

/-- `canAddPlayer`: `none` when the player may be added, otherwise the
rejection reason, checked in source order (size, duplicate, quota, club,
budget). -/
def canAddPlayer (s : TeamState) (player : Player) : Option String :=
  if s.players.length ≥ 15 then
    some "Squad is full (15 players maximum)"
  else if s.players.any (fun p => p.id == player.id) then
    some "Player already in team"
  else
    match positionLimits player.element_type with
    | some lim =>
      if getPositionCount s player.element_type ≥ lim then
        some ("Maximum " ++ toString lim ++ " " ++ getPositionName player.element_type
          ++ " allowed")
      else canAddPlayerRest s player
    | none => canAddPlayerRest s player

/-- `addPlayer`: on a validation failure only the error slot changes; on
success the player is appended and the squad value recomputed. -/
def addPlayer (s : TeamState) (player : Player) : TeamState :=
  match canAddPlayer s player with
  | some reason => { s with error := some reason }
  | none =>
    let newPlayers := s.players ++ [player]
    let newTeamValue := squadValue newPlayers
    { s with players := newPlayers, teamValue := newTeamValue, error := none }

/-- `removePlayer`: filters the id out, recomputes the squad value, clears a
matching captain or vice-captain designation and the error slot. -/
def removePlayer (s : TeamState) (playerId : Int) : TeamState :=
  let newPlayers := s.players.filter (fun p => p.id != playerId)
  let newTeamValue := squadValue newPlayers
  { s with
    players := newPlayers
    teamValue := newTeamValue
    captain := if s.captain = some playerId then none else s.captain
    viceCaptain := if s.viceCaptain = some playerId then none else s.viceCaptain
    error := none }

/-- `setCaptain`: rejects a non-member, otherwise sets the captain and clears
the vice-captaincy when the new captain held it. -/
def setCaptain (s : TeamState) (playerId : Int) : TeamState :=
  match s.players.find? (fun p => p.id == playerId) with
  | none => { s with error := some "Player not in team" }
  | some _ =>
    { s with
      captain := some playerId
      viceCaptain := if s.viceCaptain = some playerId then none else s.viceCaptain
      error := none }

/-- `setViceCaptain`: rejects a non-member and the current captain, otherwise
sets the vice-captain. -/
def setViceCaptain (s : TeamState) (playerId : Int) : TeamState :=
  match s.players.find? (fun p => p.id == playerId) with
  | none => { s with error := some "Player not in team" }
  | some _ =>
    if s.captain = some playerId then
      { s with error := some "Captain cannot be vice-captain" }
    else
      { s with viceCaptain := some playerId, error := none }

/-- `clearTeam`: reset every persisted field to the initial state. -/
def clearTeam (_s : TeamState) : TeamState := initialState

/-- `getRemainingBudget`: bank plus the gap to the hardcoded 1000 ceiling. -/
def getRemainingBudget (s : TeamState) : Int :=
  s.budget + (1000 - s.teamValue)

/-- The store mutations the captaincy claims quantify over. -/
inductive Op where
  | add (player : Player)
  | remove (playerId : Int)
  | captain (playerId : Int)
  | vice (playerId : Int)
  | clear
deriving DecidableEq, Repr

/-- One store mutation. -/
def step (s : TeamState) (op : Op) : TeamState :=
  match op with
  | .add p => addPlayer s p
  | .remove i => removePlayer s i
  | .captain i => setCaptain s i
  | .vice i => setViceCaptain s i
  | .clear => clearTeam s

/-- A sequence of mutations applied to the initial state. -/
def run (ops : List Op) : TeamState := ops.foldl step initialState

/-- The ids of the current squad members. -/
def memberIds (s : TeamState) : List Int := s.players.map Player.id

/-- The minutes-certainty sub-score as the specification words it: start at 5;
0 immediately for an injured or suspended status or a 0% chance of playing;
−3 for any other non-available status; −2 below a 50% chance and a further −1
below a 75% chance; then the minutes-played adjustment against the assumed
20-match, 90-minute ceiling (1800 minutes) and the final clamp to [0, 10]. -/
def specMinutesCertainty (p : Player) : Rat :=
  if p.status = "i" ∨ p.status = "s" then 0
  else if p.chance_of_playing_this_round = some 0 then 0
  else
    let s1 : Rat := 5
    let s2 := if p.status ≠ "a" then s1 - 3 else s1
    let s3 :=
      match p.chance_of_playing_this_round with
      | none => s2
      | some c => if c < 50 then s2 - 2 - 1 else if c < 75 then s2 - 1 else s2
    let s4 :=
      if p.minutes / 1800 > 0.8 then s3 + 3
      else if p.minutes / 1800 > 0.6 then s3 + 1
      else if p.minutes / 1800 < 0.3 then s3 - 2
      else s3
    max 0 (min s4 10)

/-- The captaincy invariant: each designation, when set, is the id of a squad
member, and the two designations differ whenever both are set. -/
def CaptainInv (s : TeamState) : Prop :=
  (∀ c, s.captain = some c → c ∈ memberIds s) ∧
  (∀ v, s.viceCaptain = some v → v ∈ memberIds s) ∧
  (∀ c v, s.captain = some c → s.viceCaptain = some v → c ≠ v)

/-- Example team: in-range strength ratings (the data source keeps them
roughly within [800, 1400]). -/
def exTeam : Team :=
  { id := 10, strength_attack_home := 1200, strength_attack_away := 1100,
    strength_defence_home := 1150, strength_defence_away := 1050 }

/-- Example midfielder of `exTeam` in good form, certain to play. -/
def exMid : Player :=
  { id := 1, element_type := 3, team := 10, status := "a", now_cost := 80,
    form := 5, points_per_game := 5, chance_of_playing_this_round := none, minutes := 1800 }

/-- Example home fixture of `exTeam` with the easiest difficulty rating. -/
def exFixtureEasy : Fixture :=
  { team_h := 10, team_a := 2, team_h_difficulty := 1, team_a_difficulty := 1 }

/-- Example player with neutral statistics. -/
def exNeutral : Player :=
  { id := 7, element_type := 3, team := 4, status := "a", now_cost := 60,
    form := 2, points_per_game := 2, chance_of_playing_this_round := none, minutes := 0 }

/-- Example injured player. -/
def exInjured : Player :=
  { id := 8, element_type := 1, team := 4, status := "i", now_cost := 45,
    form := 3, points_per_game := 3, chance_of_playing_this_round := some 0, minutes := 900 }

/-- Example goalkeeper. -/
def exGk1 : Player :=
  { id := 1, element_type := 1, team := 1, status := "a", now_cost := 45,
    form := 2, points_per_game := 2, chance_of_playing_this_round := none, minutes := 0 }

/-- A second example goalkeeper from another club. -/
def exGk2 : Player :=
  { id := 2, element_type := 1, team := 2, status := "a", now_cost := 45,
    form := 2, points_per_game := 2, chance_of_playing_this_round := none, minutes := 0 }

/-- Example store state whose captain is player 1. -/
def exCaptainState : TeamState :=
  { initialState with players := [exGk1], teamValue := 45, captain := some 1 }

/-- Example rostered forward to transfer out. -/
def c3Out : Player :=
  { id := 1, element_type := 4, team := 1, status := "a", now_cost := 50,
    form := 0, points_per_game := 0, chance_of_playing_this_round := none, minutes := 0 }

/-- First example replacement forward. -/
def c3In1 : Player :=
  { id := 2, element_type := 4, team := 2, status := "a", now_cost := 50,
    form := 5, points_per_game := 5, chance_of_playing_this_round := none, minutes := 0 }

/-- Second example replacement forward, with statistics equal to `c3In1`. -/
def c3In2 : Player :=
  { id := 3, element_type := 4, team := 3, status := "a", now_cost := 50,
    form := 5, points_per_game := 5, chance_of_playing_this_round := none, minutes := 0 }

theorem foldl_cost_acc (acc : Int) (m : List Player) :
    m.foldl (fun sum p => sum + p.now_cost) acc =
      acc + m.foldl (fun sum p => sum + p.now_cost) 0 := by
  induction m generalizing acc with
  | nil => simp
  | cons b m ihm =>
    simp only [List.foldl_cons]
    rw [ihm (acc + b.now_cost), ihm (0 + b.now_cost)]
    ring

theorem squadValue_eq_sum (l : List Player) :
    squadValue l = (l.map Player.now_cost).sum := by
  unfold squadValue
  induction l with
  | nil => rfl
  | cons a l ih =>
    simp only [List.foldl_cons, List.map_cons, List.sum_cons]
    rw [foldl_cost_acc, ih]
    ring

theorem minutesTail_eq_spec (p : Player) (x : Rat) :
    minutesTail p x =
      max 0 (min (if p.minutes / 1800 > 0.8 then x + 3
        else if p.minutes / 1800 > 0.6 then x + 1
        else if p.minutes / 1800 < 0.3 then x - 2
        else x) 10) := by
  unfold minutesTail
  norm_num

set_option maxHeartbeats 1600000 in
theorem minutesCertainty_eq_spec (p : Player) :
    calculateMinutesCertaintyScore p = specMinutesCertainty p := by
  by_cases hi : p.status = "i"
  · simp [calculateMinutesCertaintyScore, specMinutesCertainty, hi]
  by_cases hs : p.status = "s"
  · simp [calculateMinutesCertaintyScore, specMinutesCertainty, hs]
  rcases hc : p.chance_of_playing_this_round with _ | c
  · by_cases ha : p.status = "a" <;>
      · simp [calculateMinutesCertaintyScore, specMinutesCertainty, chanceStep, hc, hi, hs, ha,
          minutesTail_eq_spec]
        try norm_num
  by_cases hc0 : c = 0
  · by_cases ha : p.status = "a" <;>
      · simp [calculateMinutesCertaintyScore, specMinutesCertainty, chanceStep, hc, hi, hs, ha,
          hc0]
        try norm_num
  by_cases h50 : c < 50
  · have h75 : c < 75 := by linarith
    by_cases ha : p.status = "a" <;>
      · simp [calculateMinutesCertaintyScore, specMinutesCertainty, chanceStep, hc, hi, hs, ha,
          hc0, h50, h75, minutesTail_eq_spec]
        try norm_num
  by_cases h75 : c < 75 <;>
    · by_cases ha : p.status = "a" <;>
      · simp [calculateMinutesCertaintyScore, specMinutesCertainty, chanceStep, hc, hi, hs, ha,
          hc0, h50, h75, minutesTail_eq_spec]
        try norm_num

set_option maxHeartbeats 1600000 in
theorem minutesCertainty_range (p : Player) :
    0 ≤ calculateMinutesCertaintyScore p ∧ calculateMinutesCertaintyScore p ≤ 10 := by
  have hrange : ∀ (q : Player) (x : Rat),
      0 ≤ minutesTail q x ∧ minutesTail q x ≤ 10 := by
    intro q x
    unfold minutesTail
    exact ⟨le_max_left 0 _, max_le (by norm_num) (min_le_right _ _)⟩
  rcases hc : p.chance_of_playing_this_round with _ | c <;>
    · simp only [calculateMinutesCertaintyScore, chanceStep, hc]
      split_ifs <;> first | exact hrange p _ | norm_num

theorem addPlayer_reject (s : TeamState) (p : Player) (r : String)
    (h : canAddPlayer s p = some r) : addPlayer s p = { s with error := some r } := by
  unfold addPlayer
  rw [h]

theorem addPlayer_accept (s : TeamState) (p : Player) (h : canAddPlayer s p = none) :
    addPlayer s p =
      { s with
        players := s.players ++ [p]
        teamValue := squadValue (s.players ++ [p])
        error := none } := by
  unfold addPlayer
  rw [h]

theorem setCaptain_found (s : TeamState) (pid : Int) (q : Player)
    (hf : s.players.find? (fun p => p.id == pid) = some q) :
    setCaptain s pid =
      { s with
        captain := some pid
        viceCaptain := if s.viceCaptain = some pid then none else s.viceCaptain
        error := none } := by
  unfold setCaptain
  rw [hf]

theorem setCaptain_notfound (s : TeamState) (pid : Int)
    (hf : s.players.find? (fun p => p.id == pid) = none) :
    setCaptain s pid = { s with error := some "Player not in team" } := by
  unfold setCaptain
  rw [hf]

theorem setViceCaptain_notfound (s : TeamState) (pid : Int)
    (hf : s.players.find? (fun p => p.id == pid) = none) :
    setViceCaptain s pid = { s with error := some "Player not in team" } := by
  unfold setViceCaptain
  rw [hf]

theorem setViceCaptain_is_captain (s : TeamState) (pid : Int) (q : Player)
    (hf : s.players.find? (fun p => p.id == pid) = some q) (hcap : s.captain = some pid) :
    setViceCaptain s pid = { s with error := some "Captain cannot be vice-captain" } := by
  unfold setViceCaptain
  rw [hf]
  rw [if_pos hcap]

theorem setViceCaptain_found (s : TeamState) (pid : Int) (q : Player)
    (hf : s.players.find? (fun p => p.id == pid) = some q) (hcap : s.captain ≠ some pid) :
    setViceCaptain s pid = { s with viceCaptain := some pid, error := none } := by
  unfold setViceCaptain
  rw [hf]
  rw [if_neg hcap]

theorem captainInv_addPlayer (s : TeamState) (p : Player) (h : CaptainInv s) :
    CaptainInv (addPlayer s p) := by
  obtain ⟨h1, h2, h3⟩ := h
  rcases hv : canAddPlayer s p with _ | r
  · rw [addPlayer_accept s p hv]
    refine ⟨fun c hc => ?_, fun v hvv => ?_, fun c v hc hvv => h3 c v hc hvv⟩
    · have hc' : s.captain = some c := hc
      have hmem : c ∈ memberIds s := h1 c hc'
      show c ∈ (s.players ++ [p]).map Player.id
      rw [List.map_append]
      exact List.mem_append_left _ hmem
    · have hv' : s.viceCaptain = some v := hvv
      have hmem : v ∈ memberIds s := h2 v hv'
      show v ∈ (s.players ++ [p]).map Player.id
      rw [List.map_append]
      exact List.mem_append_left _ hmem
  · rw [addPlayer_reject s p r hv]
    exact ⟨h1, h2, h3⟩

theorem captainInv_removePlayer (s : TeamState) (pid : Int) (h : CaptainInv s) :
    CaptainInv (removePlayer s pid) := by
  obtain ⟨h1, h2, h3⟩ := h
  refine ⟨fun c hc => ?_, fun v hv => ?_, fun c v hc hv => ?_⟩
  · have hc' : (if s.captain = some pid then none else s.captain) = some c := hc
    split_ifs at hc' with hcap
    have hne : c ≠ pid := fun he => hcap (by rw [← he]; exact hc')
    obtain ⟨q, hq, hqid⟩ := List.mem_map.1 (h1 c hc')
    show c ∈ (s.players.filter (fun p => p.id != pid)).map Player.id
    refine List.mem_map.2 ⟨q, List.mem_filter.2 ⟨hq, ?_⟩, hqid⟩
    simp [bne_iff_ne, hqid, hne]
  · have hv' : (if s.viceCaptain = some pid then none else s.viceCaptain) = some v := hv
    split_ifs at hv' with hcap
    have hne : v ≠ pid := fun he => hcap (by rw [← he]; exact hv')
    obtain ⟨q, hq, hqid⟩ := List.mem_map.1 (h2 v hv')
    show v ∈ (s.players.filter (fun p => p.id != pid)).map Player.id
    refine List.mem_map.2 ⟨q, List.mem_filter.2 ⟨hq, ?_⟩, hqid⟩
    simp [bne_iff_ne, hqid, hne]
  · have hc' : (if s.captain = some pid then none else s.captain) = some c := hc
    have hv' : (if s.viceCaptain = some pid then none else s.viceCaptain) = some v := hv
    split_ifs at hc' with hcap
    split_ifs at hv' with hvcap
    exact h3 c v hc' hv'

theorem captainInv_setCaptain (s : TeamState) (pid : Int) (h : CaptainInv s) :
    CaptainInv (setCaptain s pid) := by
  obtain ⟨h1, h2, h3⟩ := h
  rcases hf : s.players.find? (fun p => p.id == pid) with _ | q
  · rw [setCaptain_notfound s pid hf]
    exact ⟨h1, h2, h3⟩
  · have hqmem : q ∈ s.players := List.mem_of_find?_eq_some hf
    have hqid : q.id = pid := by simpa using List.find?_some hf
    rw [setCaptain_found s pid q hf]
    refine ⟨fun c hc => ?_, fun v hv => ?_, fun c v hc hv => ?_⟩
    · have hc' : some pid = some c := hc
      injection hc' with hc'
      subst hc'
      exact List.mem_map.2 ⟨q, hqmem, hqid⟩
    · have hv' : (if s.viceCaptain = some pid then none else s.viceCaptain) = some v := hv
      split_ifs at hv' with hvc
      exact h2 v hv'
    · have hc' : some pid = some c := hc
      injection hc' with hc'
      have hv' : (if s.viceCaptain = some pid then none else s.viceCaptain) = some v := hv
      split_ifs at hv' with hvc
      intro he
      exact hvc (by rw [hc', he]; exact hv')

theorem captainInv_setViceCaptain (s : TeamState) (pid : Int) (h : CaptainInv s) :
    CaptainInv (setViceCaptain s pid) := by
  obtain ⟨h1, h2, h3⟩ := h
  rcases hf : s.players.find? (fun p => p.id == pid) with _ | q
  · rw [setViceCaptain_notfound s pid hf]
    exact ⟨h1, h2, h3⟩
  · have hqmem : q ∈ s.players := List.mem_of_find?_eq_some hf
    have hqid : q.id = pid := by simpa using List.find?_some hf
    by_cases hcap : s.captain = some pid
    · rw [setViceCaptain_is_captain s pid q hf hcap]
      exact ⟨h1, h2, h3⟩
    · rw [setViceCaptain_found s pid q hf hcap]
      refine ⟨fun c hc => h1 c hc, fun v hv => ?_, fun c v hc hv => ?_⟩
      · have hv' : some pid = some v := hv
        injection hv' with hv'
        subst hv'
        exact List.mem_map.2 ⟨q, hqmem, hqid⟩
      · have hv' : some pid = some v := hv
        injection hv' with hv'
        subst hv'
        have hc' : s.captain = some c := hc
        intro he
        exact hcap (by rw [← he]; exact hc')

theorem captainInv_step (s : TeamState) (op : Op) (h : CaptainInv s) :
    CaptainInv (step s op) := by
  cases op with
  | add p => exact captainInv_addPlayer s p h
  | remove i => exact captainInv_removePlayer s i h
  | captain i => exact captainInv_setCaptain s i h
  | vice i => exact captainInv_setViceCaptain s i h
  | clear =>
    refine ⟨fun c hc => ?_, fun v hv => ?_, fun c v hc hv => ?_⟩ <;>
      simp_all [step, clearTeam, initialState]

theorem captainInv_run (ops : List Op) : CaptainInv (run ops) := by
  have hfold : ∀ (l : List Op) (s : TeamState), CaptainInv s → CaptainInv (l.foldl step s) := by
    intro l
    induction l with
    | nil => exact fun s h => h
    | cons op l ih => exact fun s h => ih (step s op) (captainInv_step s op h)
  have hinit : CaptainInv initialState := by
    refine ⟨fun c hc => ?_, fun v hv => ?_, fun c v hc hv => ?_⟩ <;> simp_all [initialState]
  exact hfold ops initialState hinit

theorem gainLe_trans : ∀ (a b c : TransferSuggestion),
    gainLe a b = true → gainLe b c = true → gainLe a c = true := by
  intro a b c hab hbc
  simp only [gainLe, decide_eq_true_eq] at *
  linarith

theorem gainLe_total : ∀ (a b : TransferSuggestion),
    (gainLe a b || gainLe b a) = true := by
  intro a b
  simp only [gainLe, Bool.or_eq_true, decide_eq_true_eq]
  exact le_total _ _

theorem mergeSort_gainLe_sorted (l : List TransferSuggestion) :
    (l.mergeSort gainLe).Pairwise (fun a b => b.expectedGain ≤ a.expectedGain) :=
  (List.sorted_mergeSort gainLe_trans gainLe_total l).imp
    (fun hab => by simpa [gainLe] using hab)

theorem c3_gain1 : (scorePair c3Out c3In1).expectedGain = 9 := by
  norm_num [scorePair, c3Out, c3In1, min_def, max_def]

theorem c3_gain2 : (scorePair c3Out c3In2).expectedGain = 9 := by
  norm_num [scorePair, c3Out, c3In2, min_def, max_def]

theorem c3_results :
    ([c3Out].flatMap (fun playerOut =>
      ((([c3In1, c3In2].filter (candidateFilter [c3Out] 100 playerOut)).take 100).map
        (fun playerIn => scorePair playerOut playerIn)).filter
        (fun s => decide (s.expectedGain > 5)))) =
      [scorePair c3Out c3In1, scorePair c3Out c3In2] := by
  have hf1 : candidateFilter [c3Out] 100 c3Out c3In1 = true := by decide
  have hf2 : candidateFilter [c3Out] 100 c3Out c3In2 = true := by decide
  have hg1 : decide ((scorePair c3Out c3In1).expectedGain > 5) = true :=
    decide_eq_true (by rw [c3_gain1]; norm_num)
  have hg2 : decide ((scorePair c3Out c3In2).expectedGain > 5) = true :=
    decide_eq_true (by rw [c3_gain2]; norm_num)
  simp [List.filter, hf1, hf2, hg1, hg2]

theorem c3_perm :
    (suggestions [c3Out] [c3In1, c3In2] 100).Perm
      [scorePair c3Out c3In1, scorePair c3Out c3In2] := by
  unfold suggestions
  rw [List.take_of_length_le]
  · exact (List.mergeSort_perm _ gainLe).trans (by rw [c3_results])
  · have hlen := (List.mergeSort_perm
      ([c3Out].flatMap (fun playerOut =>
        ((([c3In1, c3In2].filter (candidateFilter [c3Out] 100 playerOut)).take 100).map
          (fun playerIn => scorePair playerOut playerIn)).filter
          (fun s => decide (s.expectedGain > 5)))) gainLe).length_eq
    rw [hlen, c3_results]
    norm_num

/-- C1: the claim says every sub-score, in particular the home/away one, is
clamped to [0, 10].  The code computes the home/away sub-score as
`strength / 140 * 10` with no clamp, so for the in-range attack strength 1200
it returns 600/7 (about 85.7), which exceeds 10 — contradicting the
function's own "Calculate home/away score (0-10)" and "Normalize to 0-10"
comments. -/
theorem homeAway_score_exceeds_ten :
    calculateHomeAwayScore exMid (some exFixtureEasy) [exTeam] = 600/7 ∧
    10 < calculateHomeAwayScore exMid (some exFixtureEasy) [exTeam] := by
  norm_num [calculateHomeAwayScore, exMid, exFixtureEasy, exTeam, List.find?]

/-- C2 counterexample: a midfielder in form, with an easy home fixture for a
team of attack strength 1200, gets predicted points 25 > 15, so the claimed
[0, 15] range does not hold for every input. -/
theorem predictedPoints_exceeds_fifteen :
    15 < (predictPlayerPoints exMid (some exFixtureEasy) [exTeam] none).predictedPoints := by
  have h : (predictPlayerPoints exMid (some exFixtureEasy) [exTeam] none).predictedPoints =
      jsRound (3543/140) := by
    simp only [predictPlayerPoints, jsRound]
    congr 1
    norm_num [calculateFormScore, calculateFixtureDifficultyScore, calculateHomeAwayScore,
      calculateMinutesCertaintyScore, chanceStep, minutesTail, WEIGHTS,
      exMid, exFixtureEasy, exTeam, List.find?]
  rw [h]
  show (15 : Int) < jsRound (3543/140)
  have h16 : (16 : Int) ≤ ⌊(3543/140 : Rat) + 1/2⌋ := Int.le_floor.mpr (by norm_num)
  unfold jsRound
  omega

/-- C2 (amended): the predicted-points value always equals
`round (1.5 * (0.4*form + 0.3*fixture + 0.1*homeAway + 0.2*minutes))` over
the four computed sub-scores, and it lies in [0, 15] whenever each of the
four sub-scores lies in [0, 10] (which the unclamped home/away sub-score can
violate, see C1). -/
theorem predictedPoints_formula_and_range (player : Player) (fx : Option Fixture)
    (teams : List Team) (history : Option (List PlayerHistory)) :
    (predictPlayerPoints player fx teams history).predictedPoints =
      jsRound (1.5 * (0.4 * calculateFormScore player history +
        0.3 * calculateFixtureDifficultyScore player fx teams +
        0.1 * calculateHomeAwayScore player fx teams +
        0.2 * calculateMinutesCertaintyScore player)) ∧
    ((0 ≤ calculateFormScore player history ∧ calculateFormScore player history ≤ 10) →
      (0 ≤ calculateFixtureDifficultyScore player fx teams ∧
        calculateFixtureDifficultyScore player fx teams ≤ 10) →
      (0 ≤ calculateHomeAwayScore player fx teams ∧
        calculateHomeAwayScore player fx teams ≤ 10) →
      (0 ≤ calculateMinutesCertaintyScore player ∧
        calculateMinutesCertaintyScore player ≤ 10) →
      0 ≤ (predictPlayerPoints player fx teams history).predictedPoints ∧
        (predictPlayerPoints player fx teams history).predictedPoints ≤ 15) := by
  have heq : (predictPlayerPoints player fx teams history).predictedPoints =
      jsRound (1.5 * (0.4 * calculateFormScore player history +
        0.3 * calculateFixtureDifficultyScore player fx teams +
        0.1 * calculateHomeAwayScore player fx teams +
        0.2 * calculateMinutesCertaintyScore player)) := by
    simp only [predictPlayerPoints, jsRound, WEIGHTS]
    congr 1
    ring
  refine ⟨heq, fun hf hx hh hm => ?_⟩
  rw [heq]
  set w : Rat := 1.5 * (0.4 * calculateFormScore player history +
    0.3 * calculateFixtureDifficultyScore player fx teams +
    0.1 * calculateHomeAwayScore player fx teams +
    0.2 * calculateMinutesCertaintyScore player) with hw
  have hw0 : 0 ≤ w := by rw [hw]; nlinarith [hf.1, hx.1, hh.1, hm.1]
  have hw15 : w ≤ 15 := by rw [hw]; nlinarith [hf.2, hx.2, hh.2, hm.2]
  constructor
  · exact Int.le_floor.mpr (by push_cast; linarith)
  · have hlt : ⌊w + 1/2⌋ < 16 := Int.floor_lt.mpr (by push_cast; linarith)
    unfold jsRound
    omega

/-- C2 witness: for a neutral player with no fixture all four sub-scores lie
in [0, 10], and the predicted points land in [0, 15]. -/
theorem predictedPoints_formula_and_range_witness :
    0 ≤ (predictPlayerPoints exNeutral none [] none).predictedPoints ∧
    (predictPlayerPoints exNeutral none [] none).predictedPoints ≤ 15 :=
  (predictedPoints_formula_and_range exNeutral none [] none).2
    (by norm_num [calculateFormScore, exNeutral])
    (by norm_num [calculateFixtureDifficultyScore])
    (by norm_num [calculateHomeAwayScore])
    (by norm_num [calculateMinutesCertaintyScore, chanceStep, minutesTail, exNeutral])

/-- C3 counterexample: two candidate forwards with identical statistics give
two suggestions of equal expected gain 9, so the output is not sorted
STRICTLY descending (the sort is only non-increasing on ties). -/
theorem suggestions_not_strictly_sorted :
    ¬ (suggestions [c3Out] [c3In1, c3In2] 100).Pairwise
      (fun a b => b.expectedGain < a.expectedGain) := by
  intro hpair
  have hlen : (suggestions [c3Out] [c3In1, c3In2] 100).length = 2 := by
    rw [c3_perm.length_eq]
    rfl
  obtain ⟨a, b, hab⟩ := List.length_eq_two.1 hlen
  have hmem : ∀ x ∈ suggestions [c3Out] [c3In1, c3In2] 100, x.expectedGain = 9 := by
    intro x hx
    have hx2 := c3_perm.mem_iff.1 hx
    simp only [List.mem_cons, List.not_mem_nil, or_false] at hx2
    rcases hx2 with h | h
    · rw [h, c3_gain1]
    · rw [h, c3_gain2]
  have ha : a.expectedGain = 9 :=
    hmem a (by rw [hab]; exact List.mem_cons_self _ _)
  have hb : b.expectedGain = 9 :=
    hmem b (by rw [hab]; exact List.mem_cons_of_mem _ (List.mem_cons_self _ _))
  rw [hab] at hpair
  have hlt := (List.pairwise_cons.1 hpair).1 b (List.mem_cons_self _ _)
  rw [ha, hb] at hlt
  exact lt_irrefl _ hlt

/-- C3 (amended): for every squad, pool and budget, every suggestion has
expected gain strictly above 5, the list is sorted in non-increasing
(weakly descending) order of expected gain, and its length is at most 9. -/
theorem suggestions_filtered_sorted_truncated (teamPlayers allPlayers : List Player)
    (budget : Int) :
    (∀ s ∈ suggestions teamPlayers allPlayers budget, 5 < s.expectedGain) ∧
    (suggestions teamPlayers allPlayers budget).Pairwise
      (fun a b => b.expectedGain ≤ a.expectedGain) ∧
    (suggestions teamPlayers allPlayers budget).length ≤ 9 := by
  unfold suggestions
  refine ⟨?_, ?_, ?_⟩
  · intro s hs
    have hs1 := List.mem_of_mem_take hs
    rw [List.mem_mergeSort, List.mem_flatMap] at hs1
    obtain ⟨out, hout, hmem⟩ := hs1
    rw [List.mem_filter] at hmem
    simpa using hmem.2
  · exact List.Pairwise.sublist (List.take_sublist 9 _) (mergeSort_gainLe_sorted _)
  · exact List.length_take_le 9 _

/-- C3 witness: a concrete suggestion drawn from the output has expected gain
above 5. -/
theorem suggestions_filtered_sorted_truncated_witness :
    5 < (scorePair c3Out c3In1).expectedGain :=
  (suggestions_filtered_sorted_truncated [c3Out] [c3In1, c3In2] 100).1
    (scorePair c3Out c3In1) (c3_perm.mem_iff.2 (List.mem_cons_self _ _))

/-- C4: the minutes-certainty sub-score equals the specification's
description (start at 5; 0 for injured/suspended or a 0% chance; −3 for
other non-available statuses; −2 below a 50% chance and −1 below a 75%
chance; minutes-ratio adjustment against the 20×90-minute ceiling; clamp to
[0, 10]); in particular an injured player always scores 0, and the result
always lies in [0, 10]. -/
theorem minutesCertainty_spec_correct (p : Player) :
    calculateMinutesCertaintyScore p = specMinutesCertainty p ∧
    (p.status = "i" → calculateMinutesCertaintyScore p = 0) ∧
    0 ≤ calculateMinutesCertaintyScore p ∧ calculateMinutesCertaintyScore p ≤ 10 := by
  refine ⟨minutesCertainty_eq_spec p, fun hi => ?_, minutesCertainty_range p⟩
  unfold calculateMinutesCertaintyScore
  simp [hi]

/-- C4 witness: the injured example player scores minutes-certainty 0. -/
theorem minutesCertainty_spec_correct_witness :
    calculateMinutesCertaintyScore exInjured = 0 :=
  (minutesCertainty_spec_correct exInjured).2.1 rfl

/-- C5: every scored out/in pair has
`base = clamp(0,100, 50 + 10*(ppgIn - ppgOut))`, `mins = 80` for an
available incoming player and 40 otherwise, the constant `fixt = 70`,
`form = clamp(0,100, 50 + 20*(formIn - formOut))`, and
`expectedGain = (0.3*base + 0.2*mins + 0.2*fixt + 0.3*form) / 10`. -/
theorem scorePair_metric_formulas (pOut pIn : Player) :
    (scorePair pOut pIn).metrics.base =
      min 100 (max 0 (50 + 10 * (pIn.points_per_game - pOut.points_per_game))) ∧
    (scorePair pOut pIn).metrics.mins = (if pIn.status = "a" then (80 : Rat) else 40) ∧
    (scorePair pOut pIn).metrics.fixt = 70 ∧
    (scorePair pOut pIn).metrics.form = min 100 (max 0 (50 + 20 * (pIn.form - pOut.form))) ∧
    (scorePair pOut pIn).expectedGain =
      (0.3 * (scorePair pOut pIn).metrics.base + 0.2 * (scorePair pOut pIn).metrics.mins +
        0.2 * (scorePair pOut pIn).metrics.fixt + 0.3 * (scorePair pOut pIn).metrics.form) / 10 := by
  simp only [scorePair]
  refine ⟨by ring_nf, ?_, ?_, by ring_nf, by ring_nf⟩ <;> trivial

/-- C6: `addPlayer` rejects exactly when the squad is full (15), the player
is already present, the 2/5/5/3 position quota is met, the club already has
3 members, or the price exceeds the bank headroom; on rejection only the
error slot changes, and on success the player is appended with the squad
value recomputed as the sum of member prices. -/
theorem addPlayer_validation (s : TeamState) (p : Player) :
    (canAddPlayer s p ≠ none ↔
      (15 ≤ s.players.length ∨
        (∃ q ∈ s.players, q.id = p.id) ∨
        ((p.element_type = 1 ∧ 2 ≤ getPositionCount s p.element_type) ∨
         (p.element_type = 2 ∧ 5 ≤ getPositionCount s p.element_type) ∨
         (p.element_type = 3 ∧ 5 ≤ getPositionCount s p.element_type) ∨
         (p.element_type = 4 ∧ 3 ≤ getPositionCount s p.element_type)) ∨
        3 ≤ getTeamPlayerCount s p.team ∨
        s.budget + s.teamValue < s.teamValue + p.now_cost)) ∧
    (∀ r, canAddPlayer s p = some r → addPlayer s p = { s with error := some r }) ∧
    (canAddPlayer s p = none →
      addPlayer s p =
        { s with
          players := s.players ++ [p]
          teamValue := ((s.players ++ [p]).map Player.now_cost).sum
          error := none }) := by
  refine ⟨?_, fun r h => ?_, fun h => ?_⟩
  · have hrest : ¬ (canAddPlayerRest s p = none) ↔
        (3 ≤ getTeamPlayerCount s p.team ∨
          s.budget + s.teamValue < s.teamValue + p.now_cost) := by
      unfold canAddPlayerRest
      split_ifs <;> simp <;> omega
    unfold canAddPlayer
    split_ifs with h1 h2
    · simp only [ne_eq, reduceCtorEq, not_false_eq_true, true_iff]
      left
      omega
    · simp only [ne_eq, reduceCtorEq, not_false_eq_true, true_iff]
      right; left
      rw [List.any_eq_true] at h2
      obtain ⟨q, hq, hqe⟩ := h2
      exact ⟨q, hq, by simpa using hqe⟩
    · have hno : ¬ (∃ q ∈ s.players, q.id = p.id) := by
        intro hex
        obtain ⟨q, hq, hqe⟩ := hex
        exact h2 (List.any_eq_true.2 ⟨q, hq, by simpa using hqe⟩)
      have hgen : ∀ lim : Nat, positionLimits p.element_type = some lim →
          ((p.element_type = 1 ∧ 2 ≤ getPositionCount s p.element_type) ∨
           (p.element_type = 2 ∧ 5 ≤ getPositionCount s p.element_type) ∨
           (p.element_type = 3 ∧ 5 ≤ getPositionCount s p.element_type) ∨
           (p.element_type = 4 ∧ 3 ≤ getPositionCount s p.element_type) ↔
            lim ≤ getPositionCount s p.element_type) := by
        intro lim hlim
        unfold positionLimits at hlim
        split_ifs at hlim with e1 e2 e3 e4 <;>
          · injection hlim with hlim
            subst hlim
            simp [e1]
            try simp [e2]
            try simp [e3]
            try simp [e4]
            try omega
      rcases hpl : positionLimits p.element_type with _ | lim
      · dsimp only
        have hq4 : ¬ ((p.element_type = 1 ∧ 2 ≤ getPositionCount s p.element_type) ∨
            (p.element_type = 2 ∧ 5 ≤ getPositionCount s p.element_type) ∨
            (p.element_type = 3 ∧ 5 ≤ getPositionCount s p.element_type) ∨
            (p.element_type = 4 ∧ 3 ≤ getPositionCount s p.element_type)) := by
          unfold positionLimits at hpl
          split_ifs at hpl with e1 e2 e3 e4
          simp [e1, e2, e3, e4]
        rw [ne_eq, hrest]
        constructor
        · intro hr
          right; right; right
          exact hr
        · rintro (h15 | hdup | hquota | hr)
          · omega
          · exact absurd hdup hno
          · exact absurd hquota hq4
          · exact hr
      · dsimp only
        rw [hgen lim hpl]
        split_ifs with hq
        · simp only [ne_eq, reduceCtorEq, not_false_eq_true, true_iff]
          right; right; left
          omega
        · rw [ne_eq, hrest]
          constructor
          · intro hr
            right; right; right
            exact hr
          · rintro (h15 | hdup | hquota | hr)
            · omega
            · exact absurd hdup hno
            · omega
            · exact hr
  · unfold addPlayer
    rw [h]
  · unfold addPlayer
    rw [h]
    simp [squadValue_eq_sum]

/-- C6 witness: adding a goalkeeper to the empty initial squad succeeds and
appends them with the squad value recomputed. -/
theorem addPlayer_validation_witness :
    addPlayer initialState exGk1 =
      { initialState with
        players := initialState.players ++ [exGk1]
        teamValue := ((initialState.players ++ [exGk1]).map Player.now_cost).sum
        error := none } :=
  (addPlayer_validation initialState exGk1).2.2 (by decide)

/-- C7: after any sequence of add/remove/set-captain/set-vice-captain/clear
operations from the initial state, the captain and vice-captain designations,
when set, are ids of current squad members, and they differ whenever both
are set (each designation is a single optional field, so at most one of
each exists by construction). -/
theorem captaincy_designations_wellformed (ops : List Op) :
    (∀ c, (run ops).captain = some c → c ∈ memberIds (run ops)) ∧
    (∀ v, (run ops).viceCaptain = some v → v ∈ memberIds (run ops)) ∧
    (∀ c v, (run ops).captain = some c → (run ops).viceCaptain = some v → c ≠ v) :=
  captainInv_run ops

/-- C7 witness: after adding two goalkeepers and designating captain 1 and
vice-captain 2, the captain's id is a squad member id. -/
theorem captaincy_designations_wellformed_witness :
    1 ∈ memberIds (run [Op.add exGk1, Op.add exGk2, Op.captain 1, Op.vice 2]) :=
  (captaincy_designations_wellformed [Op.add exGk1, Op.add exGk2, Op.captain 1, Op.vice 2]).1
    1 (by decide)

/-- C8: removing the captain clears the captaincy, removing the vice-captain
clears that designation, removing anyone else leaves each designation
unchanged, and the squad value is recomputed as the sum of the remaining
members' prices. -/
theorem removePlayer_designations_value (s : TeamState) (pid : Int) :
    (s.captain = some pid → (removePlayer s pid).captain = none) ∧
    (s.viceCaptain = some pid → (removePlayer s pid).viceCaptain = none) ∧
    (s.captain ≠ some pid → (removePlayer s pid).captain = s.captain) ∧
    (s.viceCaptain ≠ some pid → (removePlayer s pid).viceCaptain = s.viceCaptain) ∧
    (removePlayer s pid).teamValue =
      ((s.players.filter (fun p => p.id != pid)).map Player.now_cost).sum := by
  unfold removePlayer
  refine ⟨fun h => ?_, fun h => ?_, fun h => ?_, fun h => ?_, ?_⟩
  · simp [h]
  · simp [h]
  · simp [h]
  · simp [h]
  · simp [squadValue_eq_sum]

/-- C8 witness: removing player 1, the captain of the example state, clears
the captaincy and leaves the unset vice-captaincy unchanged. -/
theorem removePlayer_designations_value_witness :
    (removePlayer exCaptainState 1).captain = none ∧
    (removePlayer exCaptainState 1).viceCaptain = exCaptainState.viceCaptain :=
  ⟨(removePlayer_designations_value exCaptainState 1).1 rfl,
    (removePlayer_designations_value exCaptainState 1).2.2.2.1 (by decide)⟩

/-- C9: `canAddPlayer` is unchanged by replacing the stored squad value, and
once the first four checks pass its budget condition accepts exactly when
the player's price is at most the bank — the squad value cancels from both
sides of the comparison. -/
theorem budget_check_depends_on_bank_only (s : TeamState) (p : Player) :
    (∀ v : Int, canAddPlayer { s with teamValue := v } p = canAddPlayer s p) ∧
    (getTeamPlayerCount s p.team < 3 →
      (canAddPlayerRest s p = none ↔ p.now_cost ≤ s.budget)) := by
  constructor
  · intro v
    have hrest : ∀ w : Int, canAddPlayerRest { s with teamValue := w } p =
        canAddPlayerRest s p := by
      intro w
      unfold canAddPlayerRest getTeamPlayerCount
      dsimp only
      split_ifs with h1 h2 h3 h4 <;> first | rfl | omega
    unfold canAddPlayer getPositionCount
    simp only [hrest]
  · intro hclub
    unfold canAddPlayerRest
    rw [if_neg (by omega)]
    dsimp only
    split_ifs with h <;> simp <;> omega

/-- C9 witness: for the empty initial state the tail checks accept exactly
when the example goalkeeper's price fits the bank. -/
theorem budget_check_depends_on_bank_only_witness :
    canAddPlayerRest initialState exGk1 = none ↔ exGk1.now_cost ≤ initialState.budget :=
  (budget_check_depends_on_bank_only initialState exGk1).2 (by decide)

/-- C10: `getRemainingBudget` returns `budget + (1000 - teamValue)` with the
hardcoded 1000 ceiling, and therefore equals the bank alone exactly when the
squad value is 1000 — for any other squad value it differs from the bank
headroom that `canAddPlayer` enforces. -/
theorem getRemainingBudget_hardcoded_ceiling (s : TeamState) :
    getRemainingBudget s = s.budget + (1000 - s.teamValue) ∧
    (getRemainingBudget s = s.budget ↔ s.teamValue = 1000) := by
  unfold getRemainingBudget
  exact ⟨rfl, by omega⟩

end FPL
